import Mathlib

/-
Verification of the ideal-observer aggregation engine
(MarkovModel/IdealObserver.py): shallow embedding of the dispatcher,
the derived-metric engine (surprise, Dirichlet alphas, KL-based
Bayesian surprise, confidence-corrected surprise), the prediction
generator, and the option resolver, together with theorems settling
the specification claims.

Conventions of the embedding:
  - numpy float arrays indexed by trial become functions `Nat → ℝ`
    (or `Nat → Option ℝ` when entries may be NaN: `none` models NaN,
    and out-of-range indices are also `none`);
  - Python dicts keyed by pattern tuples become association lists
    `List (List Nat × _)`;
  - raised exceptions become `Except String _` errors (the message
    records which Python exception the branch raises);
  - scipy special functions are embedded by their mathematical
    definitions: `gammaln = log ∘ Γ` and `psi` = the derivative of `log ∘ Γ`.
-/

namespace MarkovModel

/-! ## Special functions (embedding of scipy.special.gammaln / psi and
scipy.stats.dirichlet moments) -/

/-- Embeds `scipy.special.gammaln`: the logarithm of the Gamma function. -/
noncomputable def gammaln (x : ℝ) : ℝ := Real.log (Real.Gamma x)

/-- Embeds `scipy.special.psi`: the digamma function, the derivative of
`log ∘ Γ`. -/
noncomputable def psi (x : ℝ) : ℝ := deriv (fun y => Real.log (Real.Gamma y)) x

/-- Mean of the first component of a Dirichlet distribution with the given
parameter list (embeds `scipy.stats.dirichlet.mean(a)[0]`). -/
noncomputable def dirichletMean0 (a : List ℝ) : ℝ := a.headD 0 / a.sum

/-- Variance of the first component of a Dirichlet distribution with the
given parameter list (embeds `scipy.stats.dirichlet.var(a)[0]`). -/
noncomputable def dirichletVar0 (a : List ℝ) : ℝ :=
  a.headD 0 * (a.sum - a.headD 0) / (a.sum ^ 2 * (a.sum + 1))

/-- Differential entropy of a Dirichlet distribution with parameter vector
`a 0, …, a (n-1)` (embeds `scipy.stats.dirichlet.entropy`):
`ln B(α) + (α₀ - K) ψ(α₀) - Σ (αⱼ - 1) ψ(αⱼ)` with `α₀ = Σ α`. -/
noncomputable def dirichletEntropy (n : ℕ) (a : ℕ → ℝ) : ℝ :=
  ((∑ i ∈ Finset.range n, gammaln (a i)) - gammaln (∑ i ∈ Finset.range n, a i))
    + ((∑ i ∈ Finset.range n, a i) - n) * psi (∑ i ∈ Finset.range n, a i)
    - ∑ i ∈ Finset.range n, (a i - 1) * psi (a i)

/-! ## Option maps (embedding of the Python `options` dict) -/

/-- A value stored in the `options` dictionary. Numeric scalars, integer
scalars, numeric arrays and per-pattern prior mappings occur in the source. -/
inductive OptVal where
  | num : ℝ → OptVal
  | nat : ℕ → OptVal
  | arr : List ℝ → OptVal
  | pmap : (List ℕ → ℝ) → OptVal

/-- Coerce an option value to a float the way the Python code would use it
as a number. -/
def OptVal.toNum : OptVal → ℝ
  | .num x => x
  | .nat n => (n : ℝ)
  | _ => 0

/-- Coerce an option value to an integer the way the Python code would use
it as a count. -/
def OptVal.toNatVal : OptVal → ℕ
  | .nat n => n
  | _ => 0

/-- Coerce an option value to a numeric array. -/
def OptVal.toArr : OptVal → List ℝ
  | .arr l => l
  | _ => []

/-- The `options` dictionary: an association list from (string) keys to
values. -/
def Options : Type := List (String × OptVal)

/-- Dictionary lookup in an options map (`options[key]` / `key in
options.keys()`). -/
def lookupOpt (o : Options) (k : String) : Option OptVal :=
  match o with
  | [] => none
  | kv :: rest => if kv.1 = k then some kv.2 else lookupOpt rest k

/-- Key-membership test, `key in options.keys()`. -/
def containsKey (o : Options) (k : String) : Bool :=
  (lookupOpt o k).isSome

/-- Lower-casing of a string, character by character (the semantics of the
Python `str.lower()` used by the source; stated over the character list so
that it evaluates by kernel reduction). -/
def strLower (s : String) : String := String.mk (s.data.map Char.toLower)

/-- Lower-casing of every key, the body of `check_options`. -/
def lowerKeys (o : Options) : Options :=
  o.map (fun kv => (strLower kv.1, kv.2))

/-- Embeds `check_options`: Python calls `options.keys()` on the argument,
so an absent (`None`) options argument raises `AttributeError`; otherwise
every key is lower-cased. -/
def check_options : Option Options → Except String Options
  | none => Except.error ("AttributeError: NoneType object has no attribute keys")
  | some o => Except.ok (lowerKeys o)

/-! ## Posterior output records -/

/-- The per-pattern posterior record `{mean, SD, MAP-or-dist}` filled by the
fixed-observer branch or by `fill_output_hmm`. Arrays are trial-indexed. -/
structure PostRec where
  mean : ℕ → ℝ
  SD : ℕ → ℝ
  MAP : Option (ℕ → ℝ) := none
  dist : Option (ℕ → ℕ → ℝ) := none

/-- The pattern-keyed part of the output dictionary. -/
def Out : Type := List (List ℕ × PostRec)

/-- Dictionary lookup of the posterior record of a pattern. -/
def lookupOut (out : Out) (p : List ℕ) : Option PostRec :=
  match out with
  | [] => none
  | kv :: rest => if kv.1 = p then some kv.2 else lookupOut rest p

/-- The alpha table: for each context tuple (length = order) the trial × item
matrix of Dirichlet parameters. -/
def AlphaTable : Type := List (List ℕ × (ℕ → ℕ → ℝ))

/-- NaN-propagating addition of two possibly-NaN values. -/
def optAdd : Option ℝ → Option ℝ → Option ℝ
  | some a, some b => some (a + b)
  | _, _ => none

/-- NaN-propagating sum of a list of array entries, as `numpy` summation
behaves along an axis: any NaN (`none`) makes the total NaN. The empty sum
is `0`. -/
def optSum : List (Option ℝ) → Option ℝ
  | [] => some 0
  | x :: xs => optAdd x (optSum xs)

/-! ## Option resolver (embedding of `parse_options`)

The Python `parse_options(options, key)` dispatches on a string key and
returns values of different types per key; it is split here into one
function per key. -/

/-- Modelled from the spec: `Inference_NoChangePoint.symetric_prior` is not
part of the specified core; per the spec it returns, for every pattern, the
symmetric Dirichlet pseudo-count of total weight `weight` spread uniformly
over the `Nitem` possible next items. -/
noncomputable def symetric_prior (_order Nitem : ℕ) (weight : ℝ) : List ℕ → ℝ :=
  fun _ => weight / (Nitem : ℝ)

/-- Embeds the `fixed_prior` branch of `parse_options`: an explicit
`prior_weight` builds a symmetric prior of that weight; else an explicit
`custom_prior` is used as is; else the symmetric prior of weight 1.
In the source, `order` and `Nitem` reach this branch through keys the
dispatcher stashed into the options dict; they are passed directly here. -/
noncomputable def parse_fixed_prior (options : Options) (order Nitem : ℕ) : List ℕ → ℝ :=
  match lookupOpt options "prior_weight" with
  | some w => symetric_prior order Nitem w.toNum
  | none =>
    match lookupOpt options "custom_prior" with
    | some (.pmap f) => f
    | some v => fun _ => v.toNum
    | none => symetric_prior order Nitem 1

/-- Embeds the `fixed_type` branch of `parse_options`: returns the
`(Decay, Window)` pair; `decay` is checked first and, when present, `window`
is ignored (`Window = None`). `none` models Python `None`. The function is
total: no error is raised when both keys are present. -/
def parse_fixed_type (options : Options) : Option OptVal × Option OptVal :=
  if containsKey options "decay" then (lookupOpt options "decay", none)
  else if containsKey options "window" then (none, lookupOpt options "window")
  else (none, none)

/-- Embeds the `hmm_param` branch of `parse_options`: `resol` defaults to 10,
and a missing `p_c` raises `ValueError` before anything else runs. -/
def parse_hmm_param (options : Options) : Except String (ℕ × ℝ) :=
  let resol : ℕ := match lookupOpt options "resol" with
    | some v => v.toNatVal
    | none => 10
  match lookupOpt options "p_c" with
  | some v => Except.ok (resol, v.toNum)
  | none => Except.error ("options should contain a key p_c")

/-- Embeds the `hmm+full` branch of `parse_options`: `resol` defaults to 10;
the volatility grid defaults to the 20 points `2^(-k/2)`, `k = 0..19`; the
volatility prior defaults to the uniform distribution over the grid.
This branch never reads `p_c` and cannot fail. -/
noncomputable def parse_hmm_full (options : Options) : ℕ × List ℝ × List ℝ :=
  let resol : ℕ := match lookupOpt options "resol" with
    | some v => v.toNatVal
    | none => 10
  match lookupOpt options "grid_nu" with
  | some g =>
    let grid := g.toArr
    let priorNu := match lookupOpt options "prior_nu" with
      | some p => p.toArr
      | none => List.replicate grid.length (1 / (grid.length : ℝ))
    (resol, grid, priorNu)
  | none =>
    let grid := (List.range 20).map (fun k => 1 / (2 : ℝ) ^ ((k : ℝ) / 2))
    (resol, grid, List.replicate grid.length (1 / (grid.length : ℝ)))

/-! ## Posterior output normalizer (embedding of `fill_output_hmm`) -/

/-- The probability grid `np.linspace(0, 1, resol)`. -/
noncomputable def linspace01 (resol : ℕ) : ℕ → ℝ :=
  fun i => (i : ℝ) / ((resol : ℝ) - 1)

/-- Embeds `compute_mean_of_dist`: dot product of a per-bin distribution
with the probability grid, per trial. -/
noncomputable def compute_mean_of_dist (dist : ℕ → ℕ → ℝ) (resol t : ℕ) : ℝ :=
  ∑ i ∈ Finset.range resol, dist i t * linspace01 resol i

/-- Embeds `compute_sd_of_dist`: square root of the grid second moment minus
the squared mean, per trial. -/
noncomputable def compute_sd_of_dist (dist : ℕ → ℕ → ℝ) (resol t : ℕ) : ℝ :=
  Real.sqrt ((∑ i ∈ Finset.range resol, dist i t * linspace01 resol i ^ 2)
    - compute_mean_of_dist dist resol t ^ 2)

/-- Embeds `fill_output_hmm`: each pattern of the raw posterior keeps its
grid distribution and gains grid-derived `mean` and `SD` arrays. -/
noncomputable def fill_output_hmm (post : List (List ℕ × (ℕ → ℕ → ℝ))) (resol : ℕ) : Out :=
  post.map (fun pd =>
    (pd.1,
      { mean := fun t => compute_mean_of_dist pd.2 resol t
        SD := fun t => compute_sd_of_dist pd.2 resol t
        dist := some pd.2 }))

/-! ## Derived-metric engine -/

/-- The realized `(order+1)`-pattern ending at trial `t`: the Python slice
`seq[t-order : t+1]`. -/
def patternAt (seq : List ℕ) (order t : ℕ) : List ℕ :=
  (seq.drop (t - order)).take (order + 1)

/-- Embeds `compute_surprise`. The surprise array has one entry per trial
(`none` outside `[0, len seq)`); entries are initialized to NaN (`none`).
For order 0 the loop runs over `t ∈ [1, len)` and looks up the 1-pattern
`(seq[t],)`; for positive order over `t ∈ [order, len)` with the
`(order+1)`-pattern `seq[t-order : t+1]`; in both cases the filled value is
`-log2` of the posterior mean of the pattern at trial `t-1`, and a pattern that
is not a key of the output stays NaN. -/
noncomputable def compute_surprise (seq : List ℕ) (out : Out) (order : ℕ) :
    ℕ → Option ℝ :=
  fun t =>
    if t < seq.length then
      if order = 0 then
        if 1 ≤ t then
          (lookupOut out [seq.getD t 0]).map (fun r => -Real.logb 2 (r.mean (t - 1)))
        else none
      else
        if order ≤ t then
          (lookupOut out (patternAt seq order t)).map
            (fun r => -Real.logb 2 (r.mean (t - 1)))
        else none
    else none

/-- All tuples of the given length over `[0, N)`, in the order produced by
`itertools.product(range(N), repeat=len)`. -/
def allTuples (N : ℕ) : ℕ → List (List ℕ)
  | 0 => [[]]
  | k + 1 => ((List.range N).map (fun i => (allTuples N k).map (fun p => i :: p))).flatten

/-- Embeds `compute_alpha`: for every context tuple `p` of length `order`
the matrix `alpha[t, s] = count[(p, s)][t] + prior[(p, s)]`. In the source
the count table arrives inside the output dict under the count key; it is
passed directly here, and the sequence argument (used only for defaulting
`Nitem`) is dropped. -/
noncomputable def compute_alpha (count : List ℕ → ℕ → ℝ) (order : ℕ)
    (prior : List ℕ → ℝ) (Nitem : ℕ) : AlphaTable :=
  (allTuples Nitem order).map
    (fun p => (p, fun t s => count (p ++ [s]) t + prior (p ++ [s])))

/-- Embeds `KL_dirichlet(alpha, beta)`: the closed-form Kullback-Leibler
divergence `KL(Dir(alpha) ‖ Dir(beta))` for parameter vectors of length `n`,
`lnΓ(Σα) - lnΓ(Σβ) + Σ lnΓ(β) - Σ lnΓ(α) + (α-β)·(ψ(α) - ψ(Σα))`. -/
noncomputable def KL_dirichlet (n : ℕ) (alpha beta : ℕ → ℝ) : ℝ :=
  gammaln (∑ i ∈ Finset.range n, alpha i) - gammaln (∑ i ∈ Finset.range n, beta i)
    + ((∑ i ∈ Finset.range n, gammaln (beta i)) - ∑ i ∈ Finset.range n, gammaln (alpha i))
    + ∑ i ∈ Finset.range n,
        (alpha i - beta i) * (psi (alpha i) - psi (∑ j ∈ Finset.range n, alpha j))

/-- Embeds `KL(alphas)`: a context × trial matrix initialized to NaN gets,
for every context and every trial `j ≥ 1`, the entry
`KL_dirichlet(alpha[j-1, :], alpha[j, :])`; the result is the sum over the
context axis, so trial 0 is NaN whenever at least one context exists. The
width of the parameter vectors (`Nitem`, implicit in the numpy shapes) is
the explicit argument `n`. An empty alpha table raises `IndexError` in the
source and yields `none` here. -/
noncomputable def KL (n : ℕ) (alphas : AlphaTable) : ℕ → Option ℝ :=
  fun t =>
    if alphas.isEmpty then none
    else if t = 0 then none
    else optSum (alphas.map (fun ca => some (KL_dirichlet n (ca.2 (t - 1)) (ca.2 t))))

/-- Embeds `compute_bayesian`: the KL table of the alpha trajectories. -/
noncomputable def compute_bayesian (n : ℕ) (alphas : AlphaTable) : ℕ → Option ℝ :=
  KL n alphas

/-- Embeds `H0(alphas)`: per context and trial the Dirichlet differential
entropy of the current parameter row, summed over contexts. An empty alpha
table raises `IndexError` in the source and yields `none` here. -/
noncomputable def H0 (n : ℕ) (alphas : AlphaTable) : ℕ → Option ℝ :=
  fun t =>
    if alphas.isEmpty then none
    else optSum (alphas.map (fun ca => some (dirichletEntropy n (ca.2 t))))

/-- The hardcoded bias-correction table `p_hat = {2: 1/2, 3: 1/24}` of
`compute_confidence_corrected`; any other alphabet size raises `KeyError`
(`none`). -/
noncomputable def p_hat (Nitem : ℕ) : Option ℝ :=
  if Nitem = 2 then some (1 / 2) else if Nitem = 3 then some (1 / 24) else none

/-- Embeds `compute_confidence_corrected`: pointwise
`shannon + bayesian - H0(alphas) + ln(p_hat[Nitem])` with NaN propagation;
the whole computation fails (`none`, a Python `KeyError`) when `Nitem` is
not a key of `p_hat`. -/
noncomputable def compute_confidence_corrected (n : ℕ) (shannon bayesian : ℕ → Option ℝ)
    (alphas : AlphaTable) : Option (ℕ → Option ℝ) :=
  (p_hat n).map (fun ph => fun t =>
    match shannon t, bayesian t, H0 n alphas t with
    | some s, some b, some h => some (s + b - h + Real.log ph)
    | _, _, _ => none)

/-! ## Prediction generator (embedding of `add_predictions`) -/

/-- The Dirichlet parameter pair from which `add_predictions` derives the
base prior: for order 0 under the fixed observer the configured prior of the
two items, otherwise the flat `[1, 1]`. -/
noncomputable def base_dirichlet_param (options : Options) (order : ℕ)
    (ObsType : String) (Nitem : ℕ) : List ℝ :=
  if order = 0 then
    if strLower ObsType == "fixed" then
      let prior := parse_fixed_prior options order Nitem
      [prior [0], prior [1]]
    else [1, 1]
  else [1, 1]

/-- The unconditional base-prior mean `prior_p0` of `add_predictions`. -/
noncomputable def base_prior_p0 (options : Options) (order : ℕ)
    (ObsType : String) (Nitem : ℕ) : ℝ :=
  dirichletMean0 (base_dirichlet_param options order ObsType Nitem)

/-- The unconditional base-prior standard deviation `prior_SDp0` of
`add_predictions`. -/
noncomputable def base_prior_SDp0 (options : Options) (order : ℕ)
    (ObsType : String) (Nitem : ℕ) : ℝ :=
  Real.sqrt (dirichletVar0 (base_dirichlet_param options order ObsType Nitem))

/-- The trailing context window `seq[t-order+1 : t+1]` tested against the
pause sentinel and used (with item 0 appended) for the context lookup. -/
def ctxWindow (seq : List ℕ) (order t : ℕ) : List ℕ :=
  (seq.drop (t + 1 - order)).take order

/-- The current-prediction array of `add_predictions`, for either statistic
(`proj` selects `mean` or `SD`; the source fills the two arrays with
identical control flow in one loop). Entries are initialized to the base
value; for order 0 every trial is overwritten by the `(0,)` record; for
positive order, trials `t ≥ order` are overwritten by the base value when
the trailing window contains the pause sentinel (`== Nitem`), else by the
record of the window with item 0 appended. A missing key raises `KeyError`
(`none` here). -/
noncomputable def current_pred (proj : PostRec → ℕ → ℝ) (post : Out)
    (seq : List ℕ) (order Nitem : ℕ) (base : ℝ) : ℕ → Option ℝ :=
  fun t =>
    if t < seq.length then
      if order = 0 then (lookupOut post [0]).map (fun r => proj r t)
      else if order ≤ t then
        if (ctxWindow seq order t).any (fun s => s == Nitem) then some base
        else (lookupOut post (ctxWindow seq order t ++ [0])).map (fun r => proj r t)
      else some base
    else none

/-- The prior-prediction array of `add_predictions`: initialized to the base
value, then `prior[1:] = current[:-1]`. -/
noncomputable def prior_shift (cur : ℕ → Option ℝ) (base : ℝ) (len : ℕ) :
    ℕ → Option ℝ :=
  fun t => if t < len then (if t = 0 then some base else cur (t - 1)) else none

/-- The posterior-over-volatility record reported by the `+full` variants. -/
def VolPost : Type := ℕ → ℕ → ℝ

/-- The output record of `IdealObserver`. Fields that only some observer
branches fill are `Option`s defaulting to `none` (absent); the four
prediction fields are `none` exactly when the source stores Python `None`. -/
structure IOOutput where
  post : Out := []
  surprise : ℕ → Option ℝ := fun _ => none
  count : Option (List ℕ → ℕ → ℝ) := none
  alphas : Option AlphaTable := none
  shannon : Option (ℕ → Option ℝ) := none
  bayesian : Option (ℕ → Option ℝ) := none
  confidence_corrected : Option (ℕ → Option ℝ) := none
  volatility : Option VolPost := none
  current_prediction_p0 : Option (ℕ → Option ℝ) := none
  current_prediction_SDp0 : Option (ℕ → Option ℝ) := none
  prior_prediction_p0 : Option (ℕ → Option ℝ) := none
  prior_prediction_SDp0 : Option (ℕ → Option ℝ) := none

/-- Embeds `add_predictions`: for `Nitem > 2` the four prediction fields are
set to Python `None`; otherwise the current and prior prediction arrays for
item 0 (mean and SD) are computed from the base prior and the posterior
records. -/
noncomputable def add_predictions (o : IOOutput) (seq : List ℕ) (order : ℕ)
    (options : Options) (ObsType : String) (Nitem : ℕ) : IOOutput :=
  if 2 < Nitem then
    { o with current_prediction_p0 := none
             current_prediction_SDp0 := none
             prior_prediction_p0 := none
             prior_prediction_SDp0 := none }
  else
    let p0 := base_prior_p0 options order ObsType Nitem
    let sd0 := base_prior_SDp0 options order ObsType Nitem
    let cur := current_pred (fun r => r.mean) o.post seq order Nitem p0
    let curSD := current_pred (fun r => r.SD) o.post seq order Nitem sd0
    { o with current_prediction_p0 := some cur
             current_prediction_SDp0 := some curSD
             prior_prediction_p0 := some (prior_shift cur p0 seq.length)
             prior_prediction_SDp0 := some (prior_shift curSD sd0 seq.length) }

/-- Entry `t` of an optional prediction array: `none` when the field itself
is Python `None`. -/
def predAt (f : Option (ℕ → Option ℝ)) (t : ℕ) : Option ℝ :=
  match f with
  | some g => g t
  | none => none

/-! ## Dispatcher (embedding of `IdealObserver`) -/

/-- Modelled from the spec: the external inference collaborators that the
dispatcher invokes as black boxes — the fixed-window counting service
(`Inference_NoChangePoint.count_tuple` and `posterior_no_jump`), the
coupled and uncoupled change-point engines
(`Inference_ChangePoint.compute_inference`,
`Inference_UncoupledChangePoint.convert_to_order0` / `compute_inference`)
and the volatility-marginalized engines
(`inference_volatility.posterior_prediction`,
`inference_uncoupled_volatility.posterior_prediction`). Their modules are
outside the specified core, so they are abstract parameters with the
argument shapes the core hands them and the result shapes the core
consumes. -/
structure Engines where
  count_tuple : List ℕ → ℕ → ℕ → Option OptVal → Option OptVal → (List ℕ → ℕ → ℝ)
  posterior_no_jump : (List ℕ → ℕ → ℝ) → (List ℕ → ℝ) → ℕ → ℕ → Out
  hmm_infer : List ℕ → ℕ → ℕ → ℕ → ℝ → List (List ℕ × (ℕ → ℕ → ℝ))
  hmm_unc_convert : List ℕ → ℕ → ℕ → List (List ℕ × List ℕ)
  hmm_unc_infer : List ℕ → ℕ → ℕ → ℝ → List (List ℕ × (ℕ → ℕ → ℝ))
  vol_infer : List ℕ → ℕ → ℕ → ℕ → List ℝ → List ℝ →
    (List (List ℕ × (ℕ → ℕ → ℝ)) × VolPost)
  unc_vol_infer : List ℕ → ℕ → ℕ → ℕ → List ℝ → List ℝ →
    (List (List ℕ × (ℕ → ℕ → ℝ)) × VolPost)

/-- Embeds the top-level `IdealObserver` wrapper: options are checked
(raising on `None`), `Nitem` defaults to the number of distinct items, the
observer branch selected by the lower-cased `ObsType` builds the raw output
record (an unrecognized `ObsType` leaves `out` unbound, an
`UnboundLocalError`), and `add_predictions` completes the record. -/
noncomputable def IdealObserver (E : Engines) (seq : List ℕ) (ObsType : String)
    (order : ℕ) (NitemOpt : Option ℕ) (options : Option Options) :
    Except String IOOutput := do
  let opts ← check_options options
  let Nitem := NitemOpt.getD seq.dedup.length
  let base ←
    (if strLower ObsType == "fixed" then
      let prior := parse_fixed_prior opts order Nitem
      let dw := parse_fixed_type opts
      let count := E.count_tuple seq order Nitem dw.1 dw.2
      let post := E.posterior_no_jump count prior Nitem order
      let s := compute_surprise seq post order
      let alphas := compute_alpha count order prior Nitem
      let bayes := compute_bayesian Nitem alphas
      match compute_confidence_corrected Nitem s bayes alphas with
      | some conf =>
        Except.ok { post := post, surprise := s, count := some count,
                    alphas := some alphas, shannon := some s,
                    bayesian := some bayes, confidence_corrected := some conf }
      | none => Except.error ("KeyError: p_hat")
    else if strLower ObsType == "hmm" then do
      let rp ← parse_hmm_param opts
      let marg := E.hmm_infer seq rp.1 order Nitem rp.2
      let post := fill_output_hmm marg rp.1
      Except.ok { post := post, surprise := compute_surprise seq post order }
    else if strLower ObsType == "hmm_uncoupled" then do
      let rp ← parse_hmm_param opts
      let conv := E.hmm_unc_convert seq Nitem order
      let marg := (conv.map (fun ci =>
        (E.hmm_unc_infer ci.2 rp.1 Nitem rp.2).map
          (fun ir => (ci.1 ++ ir.1, ir.2)))).flatten
      let post := fill_output_hmm marg rp.1
      Except.ok { post := post, surprise := compute_surprise seq post order }
    else if strLower ObsType == "hmm+full" then
      let rgp := parse_hmm_full opts
      let res := E.vol_infer seq order Nitem rgp.1 rgp.2.1 rgp.2.2
      let post := fill_output_hmm res.1 rgp.1
      Except.ok { post := post, surprise := compute_surprise seq post order,
                  volatility := some res.2 }
    else if strLower ObsType == "hmm_uncoupled+full" then
      let rgp := parse_hmm_full opts
      let res := E.unc_vol_infer seq order Nitem rgp.1 rgp.2.1 rgp.2.2
      let post := fill_output_hmm res.1 rgp.1
      Except.ok { post := post, surprise := compute_surprise seq post order,
                  volatility := some res.2 }
    else Except.error ("UnboundLocalError: local variable out referenced before assignment"))
  Except.ok (add_predictions base seq order opts ObsType Nitem)

/-- Whether an `Except` value is a success. -/
def exceptOk : Except String IOOutput → Bool
  | Except.ok _ => true
  | Except.error _ => false

/-! ## Specification-side comparison definition -/

/-- Follows the wording of the spec, for comparison with `compute_bayesian`: at
every trial `t ≥ 1` the per-trial Bayesian surprise is the sum across all
contexts of `KL(Dir(alpha[context][t]) ‖ Dir(alpha[context][t-1]))`, the
new posterior first and the previous posterior second. -/
noncomputable def bayesianSpec (n : ℕ) (alphas : AlphaTable) (t : ℕ) : ℝ :=
  (alphas.map (fun ca => KL_dirichlet n (ca.2 t) (ca.2 (t - 1)))).sum

/-! ## Concrete instances used to evaluate the embedding -/

/-- A one-context alpha trajectory: parameter vector `(1, 1)` at trial 0 and
`(1, 2)` at trial 1. -/
noncomputable def aC1 : ℕ → ℕ → ℝ :=
  fun t s => if t = 0 then 1 else if s = 0 then 1 else 2

/-- The alpha table holding `aC1` under the empty (order-0) context. -/
noncomputable def AC1 : AlphaTable := [([], aC1)]

/-- A posterior record with constant mean 1/2. -/
noncomputable def recC2 : PostRec := { mean := fun _ => 1 / 2, SD := fun _ => 0 }

/-- An output dictionary with the single order-0 pattern `(0,)`. -/
noncomputable def outC2 : Out := [([0], recC2)]

/-- A posterior record with constant mean 9/10. -/
noncomputable def recC3 : PostRec := { mean := fun _ => 9 / 10, SD := fun _ => 1 / 10 }

/-- An output dictionary with the single order-1 pattern `(2, 0)`. -/
noncomputable def outC3 : Out := [([2, 0], recC3)]

/-- An output record holding `outC3` before predictions are added. -/
noncomputable def oC3 : IOOutput := { post := outC3 }

/-- A posterior record with constant mean 3/10. -/
noncomputable def rec7 : PostRec := { mean := fun _ => 3 / 10, SD := fun _ => 1 / 10 }

/-- An output record with the single pattern `(0,)` mapped to `rec7`. -/
noncomputable def o7 : IOOutput := { post := [([0], rec7)] }

/-- An options map holding both a decay and a window setting. -/
noncomputable def opts10 : Options :=
  [("decay", OptVal.num (1 / 2)), ("window", OptVal.nat 10)]

/-- A trivial instantiation of the external-engine interface (every service
returns an empty posterior), used to evaluate the dispatcher on concrete
inputs. -/
noncomputable def trivEngines : Engines where
  count_tuple := fun _ _ _ _ _ => fun _ _ => 0
  posterior_no_jump := fun _ _ _ _ => []
  hmm_infer := fun _ _ _ _ _ => []
  hmm_unc_convert := fun _ _ _ => []
  hmm_unc_infer := fun _ _ _ _ => []
  vol_infer := fun _ _ _ _ _ _ => ([], fun _ _ => 0)
  unc_vol_infer := fun _ _ _ _ _ _ => ([], fun _ _ => 0)

/-! ## Helper lemmas -/

/-- On positive reals, `log ∘ Γ` has derivative `psi`. -/
theorem logGamma_hasDerivAt {x : ℝ} (hx : 0 < x) :
    HasDerivAt (fun y => Real.log (Real.Gamma y)) (psi x) x := by
  have hg : DifferentiableAt ℝ Real.Gamma x :=
    Real.differentiableAt_Gamma (fun m =>
      ((lt_of_le_of_lt (neg_nonpos.mpr (Nat.cast_nonneg m)) hx)).ne')
  have hpos : 0 < Real.Gamma x := Real.Gamma_pos_of_pos hx
  have hlog : DifferentiableAt ℝ (fun y => Real.log (Real.Gamma y)) x :=
    hg.log hpos.ne'
  exact hlog.hasDerivAt

/-- The digamma recurrence `ψ(x+1) = ψ(x) + 1/x` on positive reals, from
`Γ(x+1) = x Γ(x)`. -/
theorem psi_add_one {x : ℝ} (hx : 0 < x) : psi (x + 1) = psi x + 1 / x := by
  have h1 : HasDerivAt (fun y : ℝ => Real.log (Real.Gamma y)) (psi (x + 1)) (x + 1) :=
    logGamma_hasDerivAt (by linarith)
  have hinner : HasDerivAt (fun y : ℝ => y + 1) 1 x := (hasDerivAt_id x).add_const 1
  have hcomp : HasDerivAt (fun y : ℝ => Real.log (Real.Gamma (y + 1))) (psi (x + 1)) x := by
    have h2 := HasDerivAt.comp x h1 hinner
    simpa [Function.comp] using h2
  have hsum : HasDerivAt (fun y : ℝ => Real.log y + Real.log (Real.Gamma y))
      (x⁻¹ + psi x) x :=
    (Real.hasDerivAt_log hx.ne').add (logGamma_hasDerivAt hx)
  have heq : (fun y : ℝ => Real.log (Real.Gamma (y + 1))) =ᶠ[nhds x]
      (fun y : ℝ => Real.log y + Real.log (Real.Gamma y)) := by
    filter_upwards [Ioi_mem_nhds hx] with y hy
    have hy0 : (0 : ℝ) < y := hy
    rw [Real.Gamma_add_one hy0.ne',
      Real.log_mul hy0.ne' (Real.Gamma_pos_of_pos hy0).ne']
  have hcomp2 : HasDerivAt (fun y : ℝ => Real.log (Real.Gamma (y + 1)))
      (x⁻¹ + psi x) x := hsum.congr_of_eventuallyEq heq
  have hu := hcomp.unique hcomp2
  rw [hu]
  ring

/-- `ψ(2) = ψ(1) + 1`. -/
theorem psi_two_eq : psi 2 = psi 1 + 1 := by
  have h := psi_add_one (x := 1) one_pos
  norm_num at h
  exact h

/-- `ψ(3) = ψ(2) + 1/2`. -/
theorem psi_three_eq : psi 3 = psi 2 + 1 / 2 := by
  have h := psi_add_one (x := 2) two_pos
  norm_num at h
  exact h

/-- `lnΓ(1) = 0`. -/
theorem gammaln_one_eq : gammaln 1 = 0 := by
  rw [gammaln, Real.Gamma_one, Real.log_one]

/-- `lnΓ(2) = 0`. -/
theorem gammaln_two_eq : gammaln 2 = 0 := by
  rw [gammaln, Real.Gamma_two, Real.log_one]

/-- `lnΓ(3) = ln 2`. -/
theorem gammaln_three_eq : gammaln 3 = Real.log 2 := by
  have h3 : Real.Gamma 3 = 2 := by
    have h : ((3 : ℝ)) = (2 : ℝ) + 1 := by norm_num
    rw [h, Real.Gamma_add_one (by norm_num : (2 : ℝ) ≠ 0), Real.Gamma_two, mul_one]
  rw [gammaln, h3]

/-- NaN-propagating summation of a list that contains no NaN gives the plain
sum. -/
theorem optSum_map_some {α : Type} (l : List α) (f : α → ℝ) :
    optSum (l.map (fun x => some (f x))) = some ((l.map f).sum) := by
  induction l with
  | nil => rfl
  | cons a l ih => simp [optSum, optAdd, ih]

/-- The slice `l[t : t+1]` of an in-range index is the singleton of the
element there. -/
theorem drop_take_one {l : List ℕ} {t : ℕ} (h : t < l.length) :
    (l.drop t).take 1 = [l.getD t 0] := by
  induction l generalizing t with
  | nil => simp at h
  | cons a l ih =>
    cases t with
    | zero => simp
    | succ t => simpa using ih (by simpa using h)

/-- A probability has nonnegative surprise. -/
theorem neg_logb_nonneg_of_le_one {m : ℝ} (h0 : 0 ≤ m) (h1 : m ≤ 1) :
    0 ≤ -Real.logb 2 m := by
  have h := Real.logb_nonpos (b := 2) one_lt_two h0 h1
  linarith

/-- Binding a successful `Except` runs the continuation. -/
theorem except_ok_bind {α β : Type} (a : α) (f : α → Except String β) :
    (Except.ok a >>= f) = f a := rfl

/-- Inversion of a successful `Except` bind. -/
theorem except_bind_ok_inv {α β : Type} {e : Except String α}
    {f : α → Except String β} {b : β} (h : e >>= f = Except.ok b) :
    ∃ a, e = Except.ok a ∧ f a = Except.ok b := by
  cases e with
  | ok a => exact ⟨a, rfl, h⟩
  | error m =>
    rw [show (Except.error m >>= f : Except String β) = Except.error m from rfl] at h
    exact absurd h (by simp)

/-- Value of the embedded `KL_dirichlet` in the direction the code uses on
`aC1`: `KL(Dir(1,1) ‖ Dir(1,2)) = 1 - ln 2`. -/
theorem KLd_code_val : KL_dirichlet 2 (aC1 0) (aC1 1) = 1 - Real.log 2 := by
  simp only [KL_dirichlet, aC1]
  norm_num [Finset.sum_range_succ, Finset.sum_range_zero,
    gammaln_one_eq, gammaln_two_eq, gammaln_three_eq, psi_two_eq]
  ring

/-- Value of the embedded `KL_dirichlet` in the direction the spec asserts on
`aC1`: `KL(Dir(1,2) ‖ Dir(1,1)) = ln 2 - 1/2`. -/
theorem KLd_spec_val : KL_dirichlet 2 (aC1 1) (aC1 0) = Real.log 2 - 1 / 2 := by
  simp only [KL_dirichlet, aC1]
  norm_num [Finset.sum_range_succ, Finset.sum_range_zero,
    gammaln_one_eq, gammaln_two_eq, gammaln_three_eq, psi_two_eq, psi_three_eq]
  ring

/-! ## Claim theorems -/

/-- Claim C1 (counterexample): on the one-context alpha table `AC1` the value
returned by `compute_bayesian` at trial 1 differs from the sum over contexts
of `KL(Dir(alpha[t]) ‖ Dir(alpha[t-1]))` asserted by the claim — the code
passes the previous posterior as the first Dirichlet argument, not the new
one, and the closed-form KL is not symmetric. -/
theorem C1_counterexample :
    compute_bayesian 2 AC1 1 ≠ some (bayesianSpec 2 AC1 1) := by
  have hc : compute_bayesian 2 AC1 1 = some (KL_dirichlet 2 (aC1 0) (aC1 1) + 0) := by
    simp [compute_bayesian, KL, AC1, optSum, optAdd]
  have hs : bayesianSpec 2 AC1 1 = KL_dirichlet 2 (aC1 1) (aC1 0) + 0 := by
    simp [bayesianSpec, AC1]
  rw [hc, hs, KLd_code_val, KLd_spec_val]
  intro h
  have h2 := Option.some.inj h
  have hl := Real.log_two_lt_d9
  nlinarith

/-- Claim C1 (amended): for every parameter-vector width, every nonempty
context alpha table and every trial `t ≥ 1`, the per-trial Bayesian surprise
returned by `compute_bayesian` is the sum over all contexts of the
closed-form KL divergence `KL(Dir(alpha[context][t-1]) ‖ Dir(alpha[context][t]))`
— the previous posterior first and the new posterior second — and at trial 0
the value is NaN. -/
theorem C1_bayesian_kl_sum (n : ℕ) (alphas : AlphaTable) (t : ℕ)
    (hne : alphas.isEmpty = false) :
    (1 ≤ t → compute_bayesian n alphas t =
      some ((alphas.map (fun ca => KL_dirichlet n (ca.2 (t - 1)) (ca.2 t))).sum))
    ∧ compute_bayesian n alphas 0 = none := by
  constructor
  · intro ht
    have ht0 : t ≠ 0 := by omega
    simp [compute_bayesian, KL, hne, ht0, optSum_map_some]
  · simp [compute_bayesian, KL, hne]

/-- Claim C1 (witness): the amended theorem evaluated on the concrete table
`AC1` at trial 1. -/
theorem C1_bayesian_kl_sum_witness :
    compute_bayesian 2 AC1 1 =
      some ((AC1.map (fun ca => KL_dirichlet 2 (ca.2 0) (ca.2 1))).sum) :=
  (C1_bayesian_kl_sum 2 AC1 1 rfl).1 (by norm_num)

/-- Claim C2 (counterexample): with order 0, the realized pattern at trial 0
is a key of the posterior output, yet `compute_surprise` leaves trial 0 NaN
instead of the value `-log2(mean[t-1])` the claim asserts for every trial
`t ≥ order` — the order-0 loop starts at trial 1, not at trial `order = 0`. -/
theorem C2_counterexample :
    lookupOut outC2 [0] = some recC2
      ∧ compute_surprise [0, 0] outC2 0 0 = none
      ∧ compute_surprise [0, 0] outC2 0 0 ≠ some (-Real.logb 2 (recC2.mean 1)) := by
  refine ⟨by simp [outC2, lookupOut], by simp [compute_surprise], by simp [compute_surprise]⟩

/-- Claim C2 (amended): for every sequence, posterior output and order `k`,
and every in-range trial `t ≥ max(k, 1)`, `compute_surprise` returns
`-log2` of the posterior mean assigned at trial `t-1` to the realized
`(k+1)`-pattern ending at `t` when that pattern is a key (and NaN when it is
not); every trial `t < max(k, 1)` is NaN. -/
theorem C2_surprise_spec (seq : List ℕ) (out : Out) (k t : ℕ) (ht : t < seq.length) :
    (max k 1 ≤ t → compute_surprise seq out k t =
      (lookupOut out (patternAt seq k t)).map (fun r => -Real.logb 2 (r.mean (t - 1))))
    ∧ (t < max k 1 → compute_surprise seq out k t = none) := by
  constructor
  · intro hmax
    by_cases hk : k = 0
    · subst hk
      have h1 : 1 ≤ t := le_trans (le_max_right 0 1) hmax
      have hpat : patternAt seq 0 t = [seq.getD t 0] := by
        rw [patternAt]
        simpa using drop_take_one ht
      rw [hpat]
      simp [compute_surprise, ht, h1]
    · have hk1 : k ≤ t := le_trans (le_max_left k 1) hmax
      simp [compute_surprise, ht, hk, hk1]
  · intro hlt
    by_cases hk : k = 0
    · subst hk
      have h1 : ¬ (1 ≤ t) := by omega
      simp [compute_surprise, ht, h1]
    · have hk1 : ¬ (k ≤ t) := by
        have := le_max_left k 1
        omega
      simp [compute_surprise, ht, hk, hk1]

/-- Claim C2 (witness): the amended theorem evaluated at the concrete
sequence `[0, 0]`, output `outC2`, order 0 and trial 1. -/
theorem C2_surprise_spec_witness :
    (max 0 1 ≤ 1 → compute_surprise [0, 0] outC2 0 1 =
      (lookupOut outC2 (patternAt [0, 0] 0 1)).map
        (fun r => -Real.logb 2 (r.mean 0)))
    ∧ (1 < max 0 1 → compute_surprise [0, 0] outC2 0 1 = none) :=
  C2_surprise_spec [0, 0] outC2 0 1 (by norm_num)

/-- Claim C3 (counterexample): order 1, Nitem 2, sequence `[0, 2]` whose
trial-1 symbol is the pause sentinel (value 2 = Nitem). The window the claim
describes — the trailing `order - 1 = 0` symbols before trial `t` — is empty,
so the claim asserts the context lookup value 9/10; the code instead tests a
window that includes trial `t` itself, finds the sentinel there, and returns
the unconditional base-prior mean 1/2. -/
theorem C3_counterexample :
    predAt (add_predictions oC3 [0, 2] 1 [] ("hmm") 2).current_prediction_p0 1
        = some (1 / 2)
      ∧ (lookupOut oC3.post (ctxWindow [0, 2] 1 1 ++ [0])).map (fun r => r.mean 1)
        = some (9 / 10)
      ∧ ((1 : ℝ) / 2) ≠ 9 / 10 := by
  refine ⟨?_, ?_, by norm_num⟩
  · simp [add_predictions, predAt, current_pred, ctxWindow, base_prior_p0,
      base_dirichlet_param, dirichletMean0]
    norm_num
  · simp [oC3, outC3, ctxWindow, lookupOut, recC3]

/-- Claim C3 (amended): for order ≥ 1 and Nitem = 2, at every in-range trial
`t ≥ order`: if any symbol of the trailing window of `order` symbols ending
at and including trial `t` (positions `t-order+1 .. t`) equals the pause
sentinel (value = Nitem), the current prediction and its SD are the
unconditional base-prior mean and SD; otherwise they are the posterior mean
and SD at trial `t` of the pattern formed by that window with next item 0. -/
theorem C3_pause_fallback (o : IOOutput) (seq : List ℕ) (order t : ℕ)
    (opts : Options) (T : String)
    (ho : 1 ≤ order) (hot : order ≤ t) (ht : t < seq.length) :
    ((ctxWindow seq order t).any (fun s => s == 2) = true →
      predAt (add_predictions o seq order opts T 2).current_prediction_p0 t
          = some (base_prior_p0 opts order T 2)
        ∧ predAt (add_predictions o seq order opts T 2).current_prediction_SDp0 t
          = some (base_prior_SDp0 opts order T 2))
    ∧ ((ctxWindow seq order t).any (fun s => s == 2) = false →
      predAt (add_predictions o seq order opts T 2).current_prediction_p0 t
          = (lookupOut o.post (ctxWindow seq order t ++ [0])).map (fun r => r.mean t)
        ∧ predAt (add_predictions o seq order opts T 2).current_prediction_SDp0 t
          = (lookupOut o.post (ctxWindow seq order t ++ [0])).map (fun r => r.SD t)) := by
  have hord : order ≠ 0 := by omega
  constructor <;> intro hw <;>
    exact ⟨by simp [add_predictions, predAt, current_pred, ht, hord, hot, hw],
           by simp [add_predictions, predAt, current_pred, ht, hord, hot, hw]⟩

/-- Claim C3 (witness): the amended theorem evaluated at order 1, trial 1 of
the sequence `[0, 2]` with the posterior output `oC3`. -/
theorem C3_pause_fallback_witness :
    ((ctxWindow [0, 2] 1 1).any (fun s => s == 2) = true →
      predAt (add_predictions oC3 [0, 2] 1 [] ("fixed") 2).current_prediction_p0 1
          = some (base_prior_p0 [] 1 ("fixed") 2)
        ∧ predAt (add_predictions oC3 [0, 2] 1 [] ("fixed") 2).current_prediction_SDp0 1
          = some (base_prior_SDp0 [] 1 ("fixed") 2))
    ∧ ((ctxWindow [0, 2] 1 1).any (fun s => s == 2) = false →
      predAt (add_predictions oC3 [0, 2] 1 [] ("fixed") 2).current_prediction_p0 1
          = (lookupOut oC3.post (ctxWindow [0, 2] 1 1 ++ [0])).map (fun r => r.mean 1)
        ∧ predAt (add_predictions oC3 [0, 2] 1 [] ("fixed") 2).current_prediction_SDp0 1
          = (lookupOut oC3.post (ctxWindow [0, 2] 1 1 ++ [0])).map (fun r => r.SD 1)) :=
  C3_pause_fallback oC3 [0, 2] 1 1 [] ("fixed") (by norm_num) (by norm_num) (by norm_num)

/-- Claim C4: for every call of the dispatcher with an explicit `Nitem > 2`
that returns an output record, the four prediction fields of that record are
Python `None` — never a numeric array or placeholder. -/
theorem C4_nitem_gt2_null (E : Engines) (seq : List ℕ) (T : String)
    (order N : ℕ) (o0 : Options) (rec : IOOutput) (hN : 2 < N)
    (h : IdealObserver E seq T order (some N) (some o0) = Except.ok rec) :
    rec.current_prediction_p0 = none ∧ rec.current_prediction_SDp0 = none
      ∧ rec.prior_prediction_p0 = none ∧ rec.prior_prediction_SDp0 = none := by
  unfold IdealObserver at h
  simp only [check_options, except_ok_bind, Option.getD_some] at h
  obtain ⟨base, hb, h2⟩ := except_bind_ok_inv h
  have hrec := (Except.ok.inj h2).symm
  subst hrec
  refine ⟨?_, ?_, ?_, ?_⟩ <;> simp [add_predictions, hN]

/-- Claim C4 (witness): a concrete successful `hmm` call with `Nitem = 4`
whose output record the theorem applies to. -/
theorem C4_nitem_gt2_null_witness :
    ({ post := [], surprise := compute_surprise [] [] 0 : IOOutput}).current_prediction_p0 = none
      ∧ ({ post := [], surprise := compute_surprise [] [] 0 : IOOutput}).current_prediction_SDp0 = none
      ∧ ({ post := [], surprise := compute_surprise [] [] 0 : IOOutput}).prior_prediction_p0 = none
      ∧ ({ post := [], surprise := compute_surprise [] [] 0 : IOOutput}).prior_prediction_SDp0 = none :=
  C4_nitem_gt2_null trivEngines [] ("hmm") 0 4 [("p_c", OptVal.num 1)]
    { post := [], surprise := compute_surprise [] [] 0 } (by norm_num) rfl

/-- Claim C5: `compute_confidence_corrected` succeeds exactly for alphabet
sizes 2 and 3, returning the pointwise combination
`shannon + bayesian - H0(alphas) + ln(p_hat[Nitem])` with `p_hat[2] = 1/2`
and `p_hat[3] = 1/24`; every other alphabet size fails the `p_hat` lookup
(`KeyError`) rather than proceeding with a default. -/
theorem C5_conf_corrected (n : ℕ) (shannon bayesian : ℕ → Option ℝ)
    (alphas : AlphaTable) :
    compute_confidence_corrected n shannon bayesian alphas =
      if n = 2 then
        some (fun t =>
          match shannon t, bayesian t, H0 n alphas t with
          | some s, some b, some h => some (s + b - h + Real.log (1 / 2))
          | _, _, _ => none)
      else if n = 3 then
        some (fun t =>
          match shannon t, bayesian t, H0 n alphas t with
          | some s, some b, some h => some (s + b - h + Real.log (1 / 24))
          | _, _, _ => none)
      else none := by
  unfold compute_confidence_corrected p_hat
  by_cases h2 : n = 2
  · simp [h2]
  · by_cases h3 : n = 3 <;> simp [h2, h3]

/-- Claim C6 (counterexample): the `hmm+full` observer is an HMM variant
whose option parsing never reads `p_c`; a call on an options map without
that key succeeds instead of raising the configuration error the claim
asserts for every HMM variant. -/
theorem C6_counterexample :
    lookupOpt (lowerKeys [("resol", OptVal.nat 5)]) ("p_c") = none
      ∧ exceptOk (IdealObserver trivEngines [0, 1, 2] ("hmm+full") 0 (some 3)
          (some [("resol", OptVal.nat 5)])) = true :=
  ⟨rfl, rfl⟩

/-- Claim C6 (amended): for the known-volatility HMM variants (`hmm` and
`hmm_uncoupled`), an options map lacking the key `p_c` (after key
lower-casing) makes the call fail immediately with the `ValueError` raised
in option parsing, before any engine is invoked — the error is independent
of the engines. The `+full` variants do not require `p_c`. -/
theorem C6_missing_pc_error (E : Engines) (seq : List ℕ) (T : String)
    (order : ℕ) (NOpt : Option ℕ) (o0 : Options)
    (hT : strLower T = "hmm" ∨ strLower T = "hmm_uncoupled")
    (hpc : lookupOpt (lowerKeys o0) ("p_c") = none) :
    IdealObserver E seq T order NOpt (some o0) =
      Except.error ("options should contain a key p_c") := by
  unfold IdealObserver
  simp only [check_options, except_ok_bind]
  rcases hT with h | h <;>
    simp [h, parse_hmm_param, hpc, Bind.bind, Except.bind]

/-- Claim C6 (witness): the amended theorem evaluated on a concrete `hmm`
call with empty options. -/
theorem C6_missing_pc_error_witness :
    IdealObserver trivEngines [] ("hmm") 0 none (some []) =
      Except.error ("options should contain a key p_c") :=
  C6_missing_pc_error trivEngines [] ("hmm") 0 none [] (Or.inl rfl) rfl

/-- Claim C7: for every binary-alphabet call (`Nitem ≤ 2`), at every
in-range trial `t ≥ 1` the prior prediction (and its SD) equals the
previous current prediction `current[t-1]`, and at trial 0 it equals
the base-prior mean and SD. -/
theorem C7_prior_prediction_shift (o : IOOutput) (seq : List ℕ) (order : ℕ)
    (opts : Options) (T : String) (N t : ℕ)
    (hN : N ≤ 2) (ht1 : 1 ≤ t) (ht : t < seq.length) :
    (predAt (add_predictions o seq order opts T N).prior_prediction_p0 t
        = predAt (add_predictions o seq order opts T N).current_prediction_p0 (t - 1)
      ∧ predAt (add_predictions o seq order opts T N).prior_prediction_SDp0 t
        = predAt (add_predictions o seq order opts T N).current_prediction_SDp0 (t - 1))
    ∧ (predAt (add_predictions o seq order opts T N).prior_prediction_p0 0
        = some (base_prior_p0 opts order T N)
      ∧ predAt (add_predictions o seq order opts T N).prior_prediction_SDp0 0
        = some (base_prior_SDp0 opts order T N)) := by
  have hn2 : ¬ (2 < N) := by omega
  have ht0 : t ≠ 0 := by omega
  have hlen0 : 0 < seq.length := by omega
  refine ⟨⟨?_, ?_⟩, ?_, ?_⟩ <;>
    simp [add_predictions, hn2, predAt, prior_shift, ht, ht0, hlen0]

/-- Claim C7 (witness): the theorem evaluated on the concrete output `o7`,
the sequence `[0, 1]` and trial 1. -/
theorem C7_prior_prediction_shift_witness :
    (predAt (add_predictions o7 [0, 1] 0 [] ("hmm") 2).prior_prediction_p0 1
        = predAt (add_predictions o7 [0, 1] 0 [] ("hmm") 2).current_prediction_p0 0
      ∧ predAt (add_predictions o7 [0, 1] 0 [] ("hmm") 2).prior_prediction_SDp0 1
        = predAt (add_predictions o7 [0, 1] 0 [] ("hmm") 2).current_prediction_SDp0 0)
    ∧ (predAt (add_predictions o7 [0, 1] 0 [] ("hmm") 2).prior_prediction_p0 0
        = some (base_prior_p0 [] 0 ("hmm") 2)
      ∧ predAt (add_predictions o7 [0, 1] 0 [] ("hmm") 2).prior_prediction_SDp0 0
        = some (base_prior_SDp0 [] 0 ("hmm") 2)) :=
  C7_prior_prediction_shift o7 [0, 1] 0 [] ("hmm") 2 1
    (by norm_num) (by norm_num) (by norm_num)

/-- Claim C8: whatever posterior output feeds it — provided its means are
probabilities in `[0, 1]`, as the posterior engines guarantee — every entry
of the surprise array is NaN or nonnegative, and every entry at a trial
index below `order` is NaN (never a computed value). -/
theorem C8_surprise_nonneg (seq : List ℕ) (out : Out) (order t : ℕ)
    (hmean : ∀ p r, lookupOut out p = some r → ∀ u, 0 ≤ r.mean u ∧ r.mean u ≤ 1) :
    (compute_surprise seq out order t = none
      ∨ ∃ x, compute_surprise seq out order t = some x ∧ 0 ≤ x)
    ∧ (t < order → compute_surprise seq out order t = none) := by
  constructor
  · by_cases ht : t < seq.length
    · by_cases hk : order = 0
      · by_cases h1 : 1 ≤ t
        · cases hl : lookupOut out [seq.getD t 0] with
          | none =>
            exact Or.inl (by
              unfold compute_surprise
              rw [if_pos ht, if_pos hk, if_pos h1, hl]
              rfl)
          | some r =>
            refine Or.inr ⟨-Real.logb 2 (r.mean (t - 1)), by
              unfold compute_surprise
              rw [if_pos ht, if_pos hk, if_pos h1, hl]
              rfl, ?_⟩
            have hb := hmean _ _ hl (t - 1)
            exact neg_logb_nonneg_of_le_one hb.1 hb.2
        · exact Or.inl (by
            unfold compute_surprise
            rw [if_pos ht, if_pos hk, if_neg h1])
      · by_cases hord : order ≤ t
        · cases hl : lookupOut out (patternAt seq order t) with
          | none =>
            exact Or.inl (by
              unfold compute_surprise
              rw [if_pos ht, if_neg hk, if_pos hord, hl]
              rfl)
          | some r =>
            refine Or.inr ⟨-Real.logb 2 (r.mean (t - 1)), by
              unfold compute_surprise
              rw [if_pos ht, if_neg hk, if_pos hord, hl]
              rfl, ?_⟩
            have hb := hmean _ _ hl (t - 1)
            exact neg_logb_nonneg_of_le_one hb.1 hb.2
        · exact Or.inl (by
            unfold compute_surprise
            rw [if_pos ht, if_neg hk, if_neg hord])
    · exact Or.inl (by
        unfold compute_surprise
        rw [if_neg ht])
  · intro hlt
    have hk : order ≠ 0 := by omega
    have hord : ¬ (order ≤ t) := by omega
    by_cases ht : t < seq.length
    · unfold compute_surprise
      rw [if_pos ht, if_neg hk, if_neg hord]
    · unfold compute_surprise
      rw [if_neg ht]

/-- Claim C8 (witness): the theorem evaluated on the concrete output `outC2`
(whose only mean is the probability 1/2) at trial 1 of `[0, 0]`. -/
theorem C8_surprise_nonneg_witness :
    (compute_surprise [0, 0] outC2 0 1 = none
      ∨ ∃ x, compute_surprise [0, 0] outC2 0 1 = some x ∧ 0 ≤ x)
    ∧ (1 < 0 → compute_surprise [0, 0] outC2 0 1 = none) :=
  C8_surprise_nonneg [0, 0] outC2 0 1 (by
    intro p r h u
    by_cases hp : ([0] : List ℕ) = p
    · rw [show lookupOut outC2 p = some recC2 by simp [outC2, lookupOut, hp]] at h
      rw [← Option.some.inj h]
      norm_num [recC2]
    · rw [show lookupOut outC2 p = none by simp [outC2, lookupOut, hp]] at h
      exact absurd h (by simp))

/-- Claim C9: for every call of the dispatcher in which the options argument
is its documented default `None`, the call fails inside option checking
(`None` has no `.keys()`) before any branch or engine runs, for every
observer type and every engine bundle. -/
theorem C9_none_options_error (E : Engines) (seq : List ℕ) (T : String)
    (order : ℕ) (NOpt : Option ℕ) :
    IdealObserver E seq T order NOpt none =
      Except.error ("AttributeError: NoneType object has no attribute keys") := rfl

/-- Claim C10: when an options map contains both `decay` and `window`, the
fixed-observer type resolution returns the decay value with `Window = None`:
decay takes precedence, the window setting is silently ignored, and no error
is raised (the function is total). -/
theorem C10_decay_precedence (options : Options)
    (hd : containsKey options "decay" = true)
    (_hw : containsKey options "window" = true) :
    parse_fixed_type options = (lookupOpt options "decay", none) := by
  simp [parse_fixed_type, hd]

/-- Claim C10 (witness): the theorem evaluated on the concrete options map
`opts10` holding both settings. -/
theorem C10_decay_precedence_witness :
    parse_fixed_type opts10 = (lookupOpt opts10 "decay", none) :=
  C10_decay_precedence opts10 rfl rfl

end MarkovModel

